import Mathlib

/-!
# Verification of the MCP OAuth demo (rodocite/mcp-auth-example)

A shallow embedding of the repository's authentication gate, token codec,
session-message handler, OAuth callback listener, token exchange and request
router, together with theorems settling the frozen claims C1-C10.

JavaScript strings are modelled as Lean `String`s and the string operations
used by the source (`includes`, `startsWith`, `split`, `trim`, `toLowerCase`,
`substring`) are re-implemented over `List Char` by structural recursion so
that every definition evaluates inside the kernel.  JavaScript `null` /
`undefined` values are modelled with `Option`; JavaScript truthiness of a
string value (empty string is falsy) is modelled explicitly.  External
collaborators (the JWKS key resolver, the signature check of the `jsonwebtoken`
library, `JSON.parse`, the network) enter as explicit parameters or oracle
functions, exactly where the source calls out to them.
-/

set_option maxHeartbeats 1000000

namespace McpAuth

/-! ## Character-list string utilities (JavaScript string semantics) -/

/-- The character list of a string. -/
def chars (s : String) : List Char := s.data

/-- `toLowerCase` of a character list. -/
def lowerChars (l : List Char) : List Char := l.map Char.toLower

/-- `pre.isPre l` : `l` starts with `pre` (JS `startsWith`). -/
def isPre : List Char → List Char → Bool
  | [], _ => true
  | _ :: _, [] => false
  | a :: as, b :: bs => a == b && isPre as bs

/-- `isSuf suf l` : `l` ends with `suf` (JS `endsWith`). -/
def isSuf (suf l : List Char) : Bool := isPre suf.reverse l.reverse

/-- `containsSub l sub` : `sub` occurs inside `l` (JS `includes`). -/
def containsSub (l sub : List Char) : Bool :=
  match l with
  | [] => sub.isEmpty
  | _ :: t => isPre sub l || containsSub t sub

/-- A JavaScript whitespace character (the common ones used by `trim`). -/
def isJsWs (c : Char) : Bool := c == ' ' || c == '\t' || c == '\n' || c == '\r'

/-- JS `String.prototype.trim`. -/
def trimChars (l : List Char) : List Char :=
  ((l.dropWhile isJsWs).reverse.dropWhile isJsWs).reverse

/-- Auxiliary splitter: accumulates the current chunk (reversed). -/
def splitOnCharAux (c : Char) : List Char → List Char → List (List Char)
  | [], acc => [acc.reverse]
  | x :: xs, acc =>
    if x == c then acc.reverse :: splitOnCharAux c xs []
    else splitOnCharAux c xs (x :: acc)

/-- JS `String.prototype.split` with a single-character separator:
`"".split(c) = [""]`, and every separator occurrence starts a new chunk. -/
def splitOnChar (c : Char) (l : List Char) : List (List Char) :=
  splitOnCharAux c l []

/-- Split at the first occurrence of `c`: returns the part before it and,
when `c` occurs, the whole rest after it. -/
def splitFirstAt (c : Char) : List Char → List Char × Option (List Char)
  | [] => ([], none)
  | x :: xs =>
    if x == c then ([], some xs)
    else
      let r := splitFirstAt c xs
      (x :: r.1, r.2)

/-! ## URL query / cookie parsing

Models `new URL(u).searchParams.get(name)` and `querystring.parse` on the
fragment of their behaviour the source relies on: the query string is the part
after the first `?`, pairs are separated by `&`, and a pair splits at its
first `=` (a pair without `=` has value `""`).  Percent-decoding and `+`
decoding are not modelled; none of the claims involve encoded characters. -/

/-- Key of a `k=v` query pair. -/
def pairKey (p : List Char) : List Char := (splitFirstAt '=' p).1

/-- Value of a `k=v` query pair (`""` when there is no `=`). -/
def pairVal (p : List Char) : List Char := ((splitFirstAt '=' p).2).getD []

/-- First value bound to `name` in a raw query string. -/
def lookupParam (q : List Char) (name : List Char) : Option (List Char) :=
  ((splitOnChar '&' q).find? fun p => pairKey p == name).map pairVal

/-- The query part of a URL: everything after the first `?` (WHATWG `URL`). -/
def urlQueryPart (url : List Char) : Option (List Char) := (splitFirstAt '?' url).2

/-- `new URL(url, base).searchParams.get(name)`, over an optional `req.url`. -/
def urlSearchGet (url : Option String) (name : String) : Option String :=
  match url with
  | none => none
  | some u =>
    match urlQueryPart (chars u) with
    | none => none
    | some q => (lookupParam q (chars name)).map fun l => String.mk l

/-- `req.url?.includes(s)` (false when `req.url` is undefined). -/
def urlIncludes (url : Option String) (s : String) : Bool :=
  match url with
  | none => false
  | some u => containsSub (chars u) (chars s)

/-- `req.url?.startsWith(s)` (false when `req.url` is undefined). -/
def urlStarts (url : Option String) (s : String) : Bool :=
  match url with
  | none => false
  | some u => isPre (chars s) (chars u)

/-- JS truthiness of a `string | null | undefined` value. -/
def jsTruthy : Option String → Bool
  | none => false
  | some s => !(chars s).isEmpty

/-! ## Client-side token codec (src token utils: `decodeToken`, `decodeBase64Part`)

A minimal JSON value type; `JSON.parse` itself is an external runtime facility
and enters as a `parse : String → Option Json` parameter (`none` = the parse
throws).  Base64 decoding follows Node's `Buffer.from(s, "base64")`: characters
outside the base64 alphabet (including `=` padding) are ignored, sextets are
packed into bytes and trailing bits are dropped; the resulting bytes are read
back as characters (`toString`), which is exact for ASCII content. -/

inductive Json where
  | null : Json
  | bool (b : Bool) : Json
  | num (n : Int) : Json
  | str (s : String) : Json
  | arr (elems : List Json) : Json
  | obj (fields : List (String × Json)) : Json

/-- Sextet value of a base64 alphabet character. -/
def b64Val (c : Char) : Option Nat :=
  if 'A' ≤ c && c ≤ 'Z' then some (c.toNat - 65)
  else if 'a' ≤ c && c ≤ 'z' then some (c.toNat - 97 + 26)
  else if '0' ≤ c && c ≤ '9' then some (c.toNat - 48 + 52)
  else if c == '+' then some 62
  else if c == '/' then some 63
  else none

/-- Pack 6-bit values into 8-bit bytes, dropping trailing bits
(Node `Buffer.from(_, "base64")` semantics). -/
def sextetsToBytes : List Nat → List Nat
  | a :: b :: c :: d :: rest =>
    (a * 4 + b / 16) :: ((b % 16) * 16 + c / 4) :: ((c % 4) * 64 + d) :: sextetsToBytes rest
  | [a, b, c] => [a * 4 + b / 16, (b % 16) * 16 + c / 4]
  | [a, b] => [a * 4 + b / 16]
  | _ => []

/-- Bytes (each < 256) back to a string, one character per byte. -/
def bytesToString (bs : List Nat) : String := String.mk (bs.map Char.ofNat)

/-- `decodeBase64Part`'s preprocessing: add `=` padding to a multiple of four
and map the URL-safe characters `-` `_` to `+` `/`. -/
def b64UrlNormalize (l : List Char) : List Char :=
  let padding := if l.length % 4 == 0 then 0 else 4 - l.length % 4
  (l ++ List.replicate padding '=').map fun c =>
    if c == '-' then '+' else if c == '_' then '/' else c

/-- The text obtained by base64url-decoding a token segment, exactly as
`decodeBase64Part` computes it before `JSON.parse`. -/
def b64UrlDecode (s : String) : String :=
  bytesToString (sextetsToBytes ((b64UrlNormalize (chars s)).filterMap b64Val))

/-- The `{ error: "Could not parse JSON" }` object returned by the inner catch
of `decodeBase64Part`. -/
def jsonParseErrorObj : Json := Json.obj [("error", Json.str "Could not parse JSON")]

/-- `decodeBase64Part(b64)`: decode then `JSON.parse`, with the parse failure
caught and replaced by the error object.  Total for every string argument. -/
def decodeBase64Part (parse : String → Option Json) (b64 : String) : Json :=
  match parse (b64UrlDecode b64) with
  | some j => j
  | none => jsonParseErrorObj

/-- Result record of the client-side `decodeToken`. -/
structure DecodedToken where
  header : Json
  payload : Json
  hasSignature : Bool

/-- The `{ error: "Invalid token format" }` sentinel record returned by
`decodeToken`'s catch block. -/
def invalidFormatSentinel : DecodedToken :=
  { header := Json.obj [("error", Json.str "Invalid token format")]
    payload := Json.obj [("error", Json.str "Invalid token format")]
    hasSignature := false }

/-- Client-side `decodeToken`: splits on `.`; when the payload segment is
missing (fewer than two segments) the call `decodeBase64Part(undefined)`
throws and the catch returns the invalid-format sentinel; otherwise header and
payload are decoded independently and `hasSignature` is the truthiness of the
third segment. -/
def decodeToken (parse : String → Option Json) (token : String) : DecodedToken :=
  let parts := splitOnChar '.' (chars token)
  match parts.get? 1 with
  | none => invalidFormatSentinel
  | some p =>
    { header := decodeBase64Part parse (String.mk ((parts.get? 0).getD []))
      payload := decodeBase64Part parse (String.mk p)
      hasSignature :=
        match parts.get? 2 with
        | some sig => !sig.isEmpty
        | none => false }

/-- A concrete stand-in for `JSON.parse` covering the inputs of the concrete
examples: it recognises the two-character text of an empty JSON object. -/
def jsParse (s : String) : Option Json :=
  if chars s == [Char.ofNat 123, Char.ofNat 125] then some (Json.obj []) else none

/-! ## Server-side token validator (src `tokenValidator.ts`: `verifyToken`)

The decoded JWT is modelled structurally; `jwt.decode(token, {complete:true})`
returning `null` is the `none` case of the `Option JwtToken` argument.
Signature checking is cryptography performed by the `jsonwebtoken` library and
is abstracted as the token's `sigValidFor` predicate over the resolved key;
the JWKS lookup of `getSigningKey` is the `resolveKey` oracle (`none` = the
lookup rejects, e.g. the source's own `new Error("No signing key found")`).
Each failure cause carries the canonical message text thrown at that point:
the first three are thrown verbatim by the source, the rest are the
`jsonwebtoken` library's canonical error messages. -/

structure JwtHeader where
  alg : String
  kid : Option String
deriving DecidableEq

structure JwtPayload where
  iss : Option String
  aud : Option String
  sub : Option String
  exp : Option Int
  iat : Option Int
deriving DecidableEq

structure JwtToken where
  header : JwtHeader
  payload : JwtPayload
  sigValidFor : String → Bool

inductive VerifyCause where
  | invalidFormat
  | missingKid
  | keyResolution
  | invalidAlgorithm
  | invalidSignature
  | invalidIssuer
  | invalidAudience
  | expired
deriving DecidableEq

/-- The message of the error surfaced for each verification failure cause. -/
def VerifyCause.message : VerifyCause → String
  | .invalidFormat => "Invalid token format"
  | .missingKid => "No key ID (kid) found in token header"
  | .keyResolution => "No signing key found"
  | .invalidAlgorithm => "invalid algorithm"
  | .invalidSignature => "invalid signature"
  | .invalidIssuer => "jwt issuer invalid"
  | .invalidAudience => "jwt audience invalid"
  | .expired => "jwt expired"

structure JwtConfig where
  issuer : String
  audience : String
deriving DecidableEq

/-- Model of `jwt.verify(token, key, {issuer, audience, algorithms:["RS256"]})`:
the algorithm list is checked first, then the signature, then expiry, then the
audience and issuer claims. -/
def jwtVerify (t : JwtToken) (key : String) (cfg : JwtConfig) (now : Int) :
    Except VerifyCause JwtPayload :=
  if t.header.alg ≠ "RS256" then .error .invalidAlgorithm
  else if !t.sigValidFor key then .error .invalidSignature
  else if (match t.payload.exp with | some e => decide (e ≤ now) | none => false) then
    .error .expired
  else if t.payload.aud ≠ some cfg.audience then .error .invalidAudience
  else if t.payload.iss ≠ some cfg.issuer then .error .invalidIssuer
  else .ok t.payload

/-- Server-side `verifyToken`: decode (`none` = undecodable), require a `kid`
in the header, resolve the signing key for that `kid`, then verify. -/
def verifyToken (resolveKey : String → Option String) (cfg : JwtConfig) (now : Int)
    (tok : Option JwtToken) : Except VerifyCause JwtPayload :=
  match tok with
  | none => .error .invalidFormat
  | some t =>
    match t.header.kid with
    | none => .error .missingKid
    | some kid =>
      match resolveKey kid with
      | none => .error .keyResolution
      | some key => jwtVerify t key cfg now

/-- Whether a verification result is a success. -/
def verifyOk (r : Except VerifyCause JwtPayload) : Bool :=
  match r with
  | .ok _ => true
  | .error _ => false

/-! ## Auth gate (src `authMiddleware.ts`)

A request carries the fields the middleware reads.  Headers are the
`(name, value)` pairs of `req.headers` as Node delivers them (an array-valued
header is represented by its first element, which is what the source selects).
`bodyToken` models `(req as any).body?.token` — the token field of a body a
previous middleware may have parsed (`none` = no body or no such field). -/

structure Request where
  url : Option String
  method : String
  headers : List (String × String)
  bodyToken : Option String
deriving DecidableEq

/-- `req.headers[name]` for an exact (Node-lowercased) header name. -/
def getHeader (hs : List (String × String)) (name : String) : Option String :=
  (hs.find? fun kv => kv.1 == name).map (·.2)

/-- One step of the `authMiddleware` header loop body: does this value pass
`authHeader && authHeader.toLowerCase().startsWith("bearer ")`, and if so what
does `authHeader.substring(7)` return? -/
def bearerOf (v : String) : Option String :=
  if !(chars v).isEmpty && isPre (chars "bearer ") (lowerChars (chars v)) then
    some (String.mk ((chars v).drop 7))
  else none

/-- The header scan of `extractToken`: first entry whose key lowercases to
`authorization` and whose value passes the bearer test wins (the loop
continues past an authorization entry whose value fails the test). -/
def findBearer : List (String × String) → Option String
  | [] => none
  | (k, v) :: rest =>
    if lowerChars (chars k) == chars "authorization" then
      match bearerOf v with
      | some t => some t
      | none => findBearer rest
    else findBearer rest

/-- The cookie loop of `extractToken`: split on `;`, trim each part, split the
part on `=`; the first part whose name component is `access_token` wins, and
its value is the *second* `=`-component (possibly absent). -/
def cookieFindAux : List (List Char) → Option (Option String)
  | [] => none
  | part :: rest =>
    let comps := splitOnChar '=' (trimChars part)
    if comps.get? 0 == some (chars "access_token") then
      some ((comps.get? 1).map fun l => String.mk l)
    else cookieFindAux rest

/-- Scan a `Cookie` header value for the `access_token` cookie. -/
def cookieFind (ck : String) : Option (Option String) :=
  cookieFindAux (splitOnChar ';' (chars ck))

/-- Does the request's content type include `application/json`
(`req.headers["content-type"]?.includes("application/json")`)? -/
def contentTypeJson (req : Request) : Bool :=
  match getHeader req.headers "content-type" with
  | some ct => containsSub (chars ct) (chars "application/json")
  | none => false

/-- First block of `extractToken`: the Authorization header scan, leaving the
mutable `token` / `source` pair it produced. -/
def extractHeaderStage (req : Request) : Option String × String :=
  match findBearer req.headers with
  | some t => (some t, "Authorization header")
  | none => (none, "none")

/-- Second block of `extractToken`: when the token so far is falsy and the URL
has a query string, `token` is reassigned to the `access_token` parameter (the
source label changes only when the new value is truthy). -/
def extractQueryStage (req : Request) (st : Option String × String) :
    Option String × String :=
  if !jsTruthy st.1 && urlIncludes req.url "?" then
    (urlSearchGet req.url "access_token",
      if jsTruthy (urlSearchGet req.url "access_token") then "URL parameter" else st.2)
  else st

/-- Third block of `extractToken`: when the token so far is falsy and a cookie
header is present, the cookie loop runs; finding an `access_token` cookie sets
`token` to its (possibly absent) value and the label to `Cookie`. -/
def extractCookieStage (req : Request) (st : Option String × String) :
    Option String × String :=
  if !jsTruthy st.1 && jsTruthy (getHeader req.headers "cookie") then
    match cookieFind ((getHeader req.headers "cookie").getD "") with
    | some v => (v, "Cookie")
    | none => st
  else st

/-- Fourth block of `extractToken`: for a falsy token on a POST request with
JSON content type, a truthy `token` field of a previously parsed body wins. -/
def extractBodyStage (req : Request) (st : Option String × String) :
    Option String × String :=
  if !jsTruthy st.1 && req.method == "POST" && contentTypeJson req
      && jsTruthy req.bodyToken then
    (req.bodyToken, "Request body")
  else st

/-- `extractToken` from the source: the four blocks run in order over the
mutable `token` / `source` pair. -/
def extractToken (req : Request) : Option String × String :=
  extractBodyStage req (extractCookieStage req (extractQueryStage req (extractHeaderStage req)))

/-- The well-known discovery path fragment tested by the middleware. -/
def wellKnownFrag : String := "/.well-known/"

/-- The skip condition of both middlewares: discovery paths, preflight
`OPTIONS` requests, and the `/ping` health path are always allowed. -/
def skipAuthCond (req : Request) : Bool :=
  urlIncludes req.url wellKnownFrag || req.method == "OPTIONS" || req.url == some "/ping"

/-- The session shortcut of both middlewares: a `/messages` URL naming a
`sessionId` whose transport is registered (`getTransport(sessionId)` truthy)
is authenticated by its session. -/
def sessionBypassCond (getTransport : String → Bool) (req : Request) : Bool :=
  urlStarts req.url "/messages" && urlIncludes req.url "sessionId=" &&
    (match urlSearchGet req.url "sessionId" with
     | some sid => !(chars sid).isEmpty && getTransport sid
     | none => false)

/-- Observable outcome of a middleware run: continuation invoked, 401 written
(with the source's plain or structured body), the silent pass-through of
`handleUnauthorized` on a well-known URL, or the catch-all 500. -/
inductive GateOutcome where
  | allowed
  | unauthorized (msg : String)
  | unauthorizedJson (error : String) (code : Nat) (msg : String)
  | silent
  | serverError
deriving DecidableEq

/-- `req.url` interpolated into a template literal (`undefined` when absent). -/
def urlShow : Option String → String
  | some u => u
  | none => "undefined"

/-- `handleUnauthorized`: a well-known URL passes through silently, otherwise
a 401 with the given message is written. -/
def handleUnauthorizedOutcome (req : Request) (msg : String) : GateOutcome :=
  if urlIncludes req.url wellKnownFrag then .silent else .unauthorized msg

/-- The full-validation middleware `authMiddleware`.  The asynchronous
`verifyToken` call (JWKS fetch plus crypto) is the `verify` oracle; the
session registry lookup `getTransport` is the `getTransport` oracle. -/
def authMiddleware (verify : String → Except VerifyCause JwtPayload)
    (getTransport : String → Bool) (req : Request) : GateOutcome :=
  if skipAuthCond req then .allowed
  else if sessionBypassCond getTransport req then .allowed
  else
    match (extractToken req).1 with
    | none =>
      handleUnauthorizedOutcome req
        ("No valid token provided for request to " ++ urlShow req.url)
    | some t =>
      if (trimChars (chars t)).isEmpty then
        handleUnauthorizedOutcome req
          ("No valid token provided for request to " ++ urlShow req.url)
      else
        match verify t with
        | .ok _ => .allowed
        | .error c =>
          if containsSub (chars c.message) (chars "expired") then
            handleUnauthorizedOutcome req "Unauthorized - Token expired"
          else
            handleUnauthorizedOutcome req ("Token verification failed: " ++ c.message)

/-- The lighter-weight middleware `simpleAuthMiddleware` (verification only
when `validateToken`; the unvalidated branch merely logs a decode of the
token, which cannot change the outcome, and then continues). -/
def simpleAuthMiddleware (verify : String → Except VerifyCause JwtPayload)
    (getTransport : String → Bool) (validateToken : Bool) (req : Request) : GateOutcome :=
  if skipAuthCond req then .allowed
  else if sessionBypassCond getTransport req then .allowed
  else
    match (extractToken req).1 with
    | none => .unauthorizedJson "Unauthorized" 401 "No valid token provided"
    | some t =>
      if (trimChars (chars t)).isEmpty then
        .unauthorizedJson "Unauthorized" 401 "No valid token provided"
      else if validateToken then
        match verify t with
        | .ok _ => .allowed
        | .error c => .unauthorizedJson "Unauthorized" 401 ("Invalid token: " ++ c.message)
      else .allowed

/-! ### The claim's reading of `extractToken` (for the refinement claim C3)

`extractTokenSpec` is written from the claim's words, not from the source:
scan the four sources in priority order and let the first one that yields a
non-empty value determine both token and source label.  The `cs` flag selects
the claim's literal case-sensitive `"Bearer "` prefix (`true`) or the
case-insensitive prefix the amended claim states (`false`). -/

/-- The claim's literal bearer test: the value must start with `"Bearer "`
(case-sensitive); the header name is still matched case-insensitively. -/
def bearerOfCS (v : String) : Option String :=
  if !(chars v).isEmpty && isPre (chars "Bearer ") (chars v) then
    some (String.mk ((chars v).drop 7))
  else none

/-- Header scan under the claim's literal case-sensitive value prefix. -/
def findBearerCS : List (String × String) → Option String
  | [] => none
  | (k, v) :: rest =>
    if lowerChars (chars k) == chars "authorization" then
      match bearerOfCS v with
      | some t => some t
      | none => findBearerCS rest
    else findBearerCS rest

/-- Keep a value only when it is a non-empty string. -/
def nonEmptyOpt (o : Option String) : Option String :=
  o.bind fun t => if (chars t).isEmpty then none else some t

/-- The credential the Authorization-header source yields (non-empty only). -/
def specHeaderToken (cs : Bool) (hs : List (String × String)) : Option String :=
  nonEmptyOpt (if cs then findBearerCS hs else findBearer hs)

/-- The credential the `access_token` query-parameter source yields. -/
def specQueryToken (req : Request) : Option String :=
  nonEmptyOpt (urlSearchGet req.url "access_token")

/-- The credential the `access_token` cookie source yields. -/
def specCookieToken (req : Request) : Option String :=
  match cookieFind ((getHeader req.headers "cookie").getD "") with
  | some v => nonEmptyOpt v
  | none => none

/-- The credential the parsed-body source yields (POST with JSON content). -/
def specBodyToken (req : Request) : Option String :=
  if req.method == "POST" && contentTypeJson req then nonEmptyOpt req.bodyToken
  else none

/-- `extractToken` as claim C3 states it: fixed priority order, first source
yielding a non-empty value wins and fixes the source label; later sources are
not consulted. -/
def extractTokenSpec (cs : Bool) (req : Request) : Option (String × String) :=
  match specHeaderToken cs req.headers with
  | some t => some (t, "Authorization header")
  | none =>
    match specQueryToken req with
    | some t => some (t, "URL parameter")
    | none =>
      match specCookieToken req with
      | some t => some (t, "Cookie")
      | none =>
        match specBodyToken req with
        | some t => some (t, "Request body")
        | none => none

/-! ## SSE messages handler (src `sseMessagesHandler`) -/

/-- Observable outcome of `sseMessagesHandler`: 400 for a missing/empty
`sessionId`, 404 when no transport is registered for it, or delivery of the
message to the session's transport. -/
inductive MessagesOutcome where
  | badRequest (msg : String)
  | notFound (msg : String)
  | posted (sid : String)
deriving DecidableEq

/-- `sseMessagesHandler`: read the `sessionId` query parameter from the raw
URL; falsy (`null` or `""`) gives a 400, an unregistered id gives a 404 with
the session-not-found body, and otherwise the message is handed to the
registered transport's `handlePostMessage`. -/
def sseMessagesHandler (getTransport : String → Bool) (url : String) : MessagesOutcome :=
  match urlSearchGet (some url) "sessionId" with
  | none => .badRequest "No sessionId provided"
  | some sid =>
    if (chars sid).isEmpty then .badRequest "No sessionId provided"
    else if getTransport sid then .posted sid
    else .notFound "Session not found or expired"

/-! ## OAuth callback listener (src `openAuthorizationWindow`)

The one-shot callback server is a state machine: the pending/settled state of
the promise created by `openAuthorizationWindow` plus whether the HTTP
listener is still accepting connections.  `settle` encodes the JavaScript
promise contract that only the first `resolve`/`reject` takes effect.  Each
incoming request (its `req.url`) is processed by `listenerStep`, which mirrors
the request handler of the source: requests outside `/callback` return 404
without touching the state; an `error` query parameter rejects; a missing or
empty `code` rejects; a code responds with the success page, closes the server
and resolves.  Only the success branch calls `server.close()`. -/

inductive PromiseState where
  | pending
  | resolvedWith (code : String)
  | rejectedWith (msg : String)
deriving DecidableEq

/-- Settling an already-settled promise is a no-op. -/
def settle (p v : PromiseState) : PromiseState :=
  match p with
  | .pending => v
  | _ => p

structure ListenerState where
  promise : PromiseState
  serverOpen : Bool
deriving DecidableEq

/-- The state just after `server.listen(PORT, ...)` succeeds. -/
def listenerInit : ListenerState := { promise := .pending, serverOpen := true }

/-- `querystring.parse(req.url.split("?")[1] || "")`: the text between the
first and second `?` of the URL. -/
def callbackQueryStr (url : String) : List Char :=
  ((splitOnChar '?' (chars url)).get? 1).getD []

/-- One incoming request processed by the callback server's handler. -/
def listenerStep (st : ListenerState) (url : Option String) : ListenerState :=
  if !st.serverOpen then st
  else if urlStarts url "/callback" then
    let q := callbackQueryStr (url.getD "")
    let errv := (lookupParam q (chars "error")).getD []
    if !errv.isEmpty then
      { st with promise := settle st.promise (.rejectedWith ("Authorization error: " ++ String.mk errv)) }
    else
      let codev := (lookupParam q (chars "code")).getD []
      if codev.isEmpty then
        { st with promise := settle st.promise (.rejectedWith "No authorization code received") }
      else
        { promise := settle st.promise (.resolvedWith (String.mk codev)), serverOpen := false }
  else st

/-- A whole flow: the listener processes a sequence of incoming requests. -/
def listenerRun (st : ListenerState) (reqs : List (Option String)) : ListenerState :=
  reqs.foldl listenerStep st

/-! ## Token exchange (src `exchangeCodeForToken`)

The network is external: the function is modelled as a function of the token
endpoint's response.  `resp.json` is the parse of the body into the
`{access_token, token_type, expires_in?}` record (`none` when the body does
not yield a usable `access_token`, in which case the source throws while
logging the token preview). -/

structure TokenData where
  access_token : String
  token_type : String
  expires_in : Option Nat
deriving DecidableEq

structure TokenHttpResponse where
  status : Nat
  body : String
  json : Option TokenData
deriving DecidableEq

inductive ExchangeOutcome where
  | failed (status : Nat) (body : String)
  | parseFailure
  | success (td : TokenData)
deriving DecidableEq

/-- `fetch` response `.ok`: status in the 2xx range. -/
def respOk (r : TokenHttpResponse) : Bool := 200 ≤ r.status && r.status < 300

/-- `exchangeCodeForToken` as a function of the token endpoint's response:
non-2xx throws `Token exchange failed: <status> - <body>`, a 2xx response
yields the parsed token data. -/
def exchangeCodeForToken (resp : TokenHttpResponse) : ExchangeOutcome :=
  if !respOk resp then .failed resp.status resp.body
  else
    match resp.json with
    | none => .parseFailure
    | some td => .success td

/-- What `startOAuthFlow` hands to its caller from the exchange step: the
access token on success, nothing (the error propagates) otherwise. -/
def startOAuthFlowToken (resp : TokenHttpResponse) : Option String :=
  match exchangeCodeForToken resp with
  | .success td => some td.access_token
  | _ => none

/-! ## Request router (src `router.ts`)

The response object records whether `res.end` has run, the last status set and
the body written; `writeHead`/`end` after the response has ended are no-ops
(the ended flag is monotone).  A middleware is modelled by what it does with
its continuation: throw (after some writes), return without calling `next`, or
call `next` once with writes before and after — the discipline every
middleware of this repository follows.  A route handler is the effect it
applies to the response.  The interpreter emits a trace event for every
middleware/handler entry, recording whether the response was already finalized
at that entry, and a `threw` event when a middleware throws. -/

structure Resp where
  ended : Bool
  status : Option Nat
  body : String
deriving DecidableEq

inductive ResOp where
  | writeHead (n : Nat)
  | endRes (s : String)
deriving DecidableEq

def applyOp (r : Resp) (op : ResOp) : Resp :=
  match op with
  | .writeHead n => if r.ended then r else { r with status := some n }
  | .endRes s => if r.ended then r else { r with ended := true, body := s }

def applyEff (ops : List ResOp) (r : Resp) : Resp := ops.foldl applyOp r

inductive Mw where
  | throws (pre : List ResOp)
  | noNext (eff : List ResOp)
  | withNext (pre post : List ResOp)
deriving DecidableEq

inductive Ev where
  | mwRun (i : Nat) (endedAtEntry : Bool)
  | handlerRun (endedAtEntry : Bool)
  | threw (i : Nat)
deriving DecidableEq

/-- `executeMiddlewareChain`: past the last middleware the final handler runs;
a middleware receives a `next` that continues the chain only if the response
has not already been finalized; an exception propagates outward, skipping the
post-`next` writes of enclosing middlewares.  The boolean result reports
whether the chain threw. -/
def runChain (handler : List ResOp) : List Mw → Nat → Resp → Resp × List Ev × Bool
  | [], _, r => (applyEff handler r, [Ev.handlerRun r.ended], false)
  | Mw.throws pre :: _, i, r => (applyEff pre r, [Ev.mwRun i r.ended, Ev.threw i], true)
  | Mw.noNext eff :: _, i, r => (applyEff eff r, [Ev.mwRun i r.ended], false)
  | Mw.withNext pre post :: rest, i, r =>
    let r1 := applyEff pre r
    if r1.ended then (applyEff post r1, [Ev.mwRun i r.ended], false)
    else
      let out := runChain handler rest (i + 1) r1
      if out.2.2 then (out.1, Ev.mwRun i r.ended :: out.2.1, true)
      else (applyEff post out.1, Ev.mwRun i r.ended :: out.2.1, false)

/-- A route path pattern: a string (exact, `"*"`, or trailing-wildcard match)
or a regular expression, abstracted by its match predicate. -/
inductive RoutePattern where
  | strPat (s : String)
  | regexPat (test : String → Bool)

/-- Path matching from `handleRequest`: the raw request URL (query string
included) is compared to the pattern. -/
def patternMatches (p : RoutePattern) (url : String) : Bool :=
  match p with
  | .strPat s =>
    if s == "*" then true
    else if isSuf (chars "*") (chars s) then isPre ((chars s).dropLast) (chars url)
    else s == url
  | .regexPat f => f url

structure RouteEntry where
  method : String
  pattern : RoutePattern
  handler : List ResOp

/-- Whether a registered rule matches the request's method and raw URL. -/
def routeMatches (m url : String) (rt : RouteEntry) : Bool :=
  (rt.method == "ALL" || rt.method == m) && patternMatches rt.pattern url

/-- The rule loop of `handleRequest`: first registered match wins. -/
def findRoute (routes : List RouteEntry) (m url : String) : Option RouteEntry :=
  routes.find? (routeMatches m url)

/-- The generic server-error response written when the chain throws. -/
def gen500 : List ResOp := [ResOp.writeHead 500, ResOp.endRes "Internal Server Error"]

/-- The body of `handleRequest` for a matched rule: with no middleware the
handler runs directly; otherwise the chain runs, and if it threw a generic
500 is written unless the response already ended. -/
def dispatchRoute (mws : List Mw) (rt : RouteEntry) (r : Resp) : Resp × List Ev × Bool :=
  if mws.isEmpty then (applyEff rt.handler r, [Ev.handlerRun r.ended], true)
  else
    let out := runChain rt.handler mws 0 r
    if out.2.2 then
      ((if out.1.ended then out.1 else applyEff gen500 out.1), out.2.1, true)
    else (out.1, out.2.1, true)

/-- `handleRequest`: no matching rule leaves the request unhandled (the
caller responds 404); a matched rule dispatches through the middleware chain.
Returns the final response, the trace, and whether a rule matched. -/
def handleRequest (routes : List RouteEntry) (mws : List Mw) (m url : String)
    (r : Resp) : Resp × List Ev × Bool :=
  match findRoute routes m url with
  | none => (r, [], false)
  | some rt => dispatchRoute mws rt r

/-- Is an event a terminal-handler invocation? -/
def isHandlerEv : Ev → Bool
  | .handlerRun _ => true
  | _ => false

/-- Count of terminal-handler invocations in a trace. -/
def countHandlerRuns (evs : List Ev) : Nat := (evs.filter isHandlerEv).length

/-- The finalized-at-entry flag of an event (`false` for `threw`). -/
def evEnteredFinalized : Ev → Bool
  | .mwRun _ b => b
  | .handlerRun b => b
  | .threw _ => false

/-! # Theorems -/

/-! ## General helper lemmas -/

theorem chars_isEmpty_false_of_ne {s : String} (h : s ≠ "") : (chars s).isEmpty = false := by
  cases s with
  | mk data =>
    cases data with
    | nil => exact absurd rfl h
    | cons a l => rfl

theorem containsSub_single_of_splitFirstAt {c : Char} :
    ∀ {l r : List Char}, (splitFirstAt c l).2 = some r → containsSub l [c] = true := by
  intro l
  induction l with
  | nil => intro r h; simp [splitFirstAt] at h
  | cons x xs ih =>
    intro r h
    by_cases hx : (x == c) = true
    · have hx' : x = c := eq_of_beq hx
      subst hx'
      simp [containsSub, isPre]
    · have hx' : (x == c) = false := by
        cases hxx : (x == c) with
        | true => exact absurd hxx hx
        | false => rfl
      rw [splitFirstAt] at h
      rw [hx'] at h
      simp only [Bool.false_eq_true, if_false] at h
      have := ih (r := r) h
      simp [containsSub, this]

theorem urlIncludes_q_of_searchGet {url : Option String} {n v : String}
    (h : urlSearchGet url n = some v) : urlIncludes url "?" = true := by
  cases url with
  | none => simp [urlSearchGet] at h
  | some u =>
    rw [urlSearchGet] at h
    cases hq : urlQueryPart (chars u) with
    | none => rw [hq] at h; simp at h
    | some q =>
      have : containsSub (chars u) ['?'] = true :=
        containsSub_single_of_splitFirstAt (r := q) hq
      simpa [urlIncludes, chars] using this

theorem jsTruthy_some_of_ne {t : String} (h : t ≠ "") : jsTruthy (some t) = true := by
  simp [jsTruthy, chars_isEmpty_false_of_ne h]

/-! ## C1 : discovery paths and preflight are always allowed -/

/-- Claim C1: for every request whose URL contains the well-known discovery
path fragment or whose method is OPTIONS, both `authMiddleware` and
`simpleAuthMiddleware` invoke their continuation (`allowed`) without
consulting the credential, the verifier or the session registry — the
conclusion holds for every `verify` and `getTransport` oracle and every
credential the request carries. -/
theorem authGate_C1_discovery_and_preflight_allowed
    (verify : String → Except VerifyCause JwtPayload) (getTransport : String → Bool)
    (vt : Bool) (req : Request)
    (h : urlIncludes req.url wellKnownFrag = true ∨ req.method = "OPTIONS") :
    authMiddleware verify getTransport req = .allowed ∧
      simpleAuthMiddleware verify getTransport vt req = .allowed := by
  have hskip : skipAuthCond req = true := by
    rcases h with h | h
    · simp [skipAuthCond, h]
    · simp [skipAuthCond, h]
  exact ⟨by simp [authMiddleware, hskip], by simp [simpleAuthMiddleware, hskip]⟩

/-- Witness for C1: a discovery request carrying an (invalid) credential is
allowed by both middlewares, under a verifier that rejects everything. -/
theorem authGate_C1_witness :
    authMiddleware (fun _ => .error .expired) (fun _ => false)
        { url := some "/.well-known/oauth-protected-resource", method := "GET",
          headers := [("authorization", "Bearer garbage")], bodyToken := none } = .allowed ∧
      simpleAuthMiddleware (fun _ => .error .expired) (fun _ => false) true
        { url := some "/.well-known/oauth-protected-resource", method := "GET",
          headers := [("authorization", "Bearer garbage")], bodyToken := none } = .allowed :=
  authGate_C1_discovery_and_preflight_allowed _ _ _ _ (Or.inl (by decide))

/-! ## C2 : session shortcut and unknown-session 404 -/

/-- Claim C2: a POST to a `/messages` URL naming a `sessionId` that is bound
to a registered transport is allowed by both middlewares with no credential
check (any `verify` oracle, any credential material); and when the
`sessionId` is bound to no registered transport, `sseMessagesHandler`
responds 404 with the session-not-found body. -/
theorem authGate_C2_session_bypass_and_unknown_session :
    (∀ (verify : String → Except VerifyCause JwtPayload) (getTransport : String → Bool)
        (vt : Bool) (req : Request) (sid : String),
        req.method = "POST" →
        urlStarts req.url "/messages" = true →
        urlIncludes req.url "sessionId=" = true →
        urlSearchGet req.url "sessionId" = some sid →
        sid ≠ "" →
        getTransport sid = true →
        authMiddleware verify getTransport req = .allowed ∧
          simpleAuthMiddleware verify getTransport vt req = .allowed) ∧
      (∀ (getTransport : String → Bool) (url sid : String),
        urlSearchGet (some url) "sessionId" = some sid →
        sid ≠ "" →
        getTransport sid = false →
        sseMessagesHandler getTransport url = .notFound "Session not found or expired") := by
  constructor
  · intro verify getTransport vt req sid _hm hs hi hg hne hgt
    have hbyp : sessionBypassCond getTransport req = true := by
      simp [sessionBypassCond, hs, hi, hg, hgt, chars_isEmpty_false_of_ne hne]
    by_cases hsk : skipAuthCond req = true
    · exact ⟨by simp [authMiddleware, hsk], by simp [simpleAuthMiddleware, hsk]⟩
    · have hsk' : skipAuthCond req = false := by
        cases hv : skipAuthCond req with
        | true => exact absurd hv hsk
        | false => rfl
      exact ⟨by simp [authMiddleware, hsk', hbyp], by simp [simpleAuthMiddleware, hsk', hbyp]⟩
  · intro getTransport url sid hg hne hgt
    simp [sseMessagesHandler, hg, chars_isEmpty_false_of_ne hne, hgt]

/-- Witness for C2: a concrete credential-free POST to
`/messages?sessionId=abc` with `abc` registered is allowed by both
middlewares; a concrete lookup of an unregistered id yields the 404 body. -/
theorem authGate_C2_witness :
    (authMiddleware (fun _ => .error .expired) (fun s => s == "abc")
        { url := some "/messages?sessionId=abc", method := "POST",
          headers := [], bodyToken := none } = .allowed ∧
      simpleAuthMiddleware (fun _ => .error .expired) (fun s => s == "abc") true
        { url := some "/messages?sessionId=abc", method := "POST",
          headers := [], bodyToken := none } = .allowed) ∧
      sseMessagesHandler (fun _ => false) "/messages?sessionId=zzz" =
        .notFound "Session not found or expired" :=
  ⟨authGate_C2_session_bypass_and_unknown_session.1 _ _ _ _ "abc"
      rfl (by decide) (by decide) (by decide) (by decide) (by decide),
    authGate_C2_session_bypass_and_unknown_session.2 _ "/messages?sessionId=zzz" "zzz"
      (by decide) (by decide) rfl⟩

/-! ## C8 : token exchange failure carries status and body -/

/-- Claim C8: a non-2xx token-endpoint response makes `exchangeCodeForToken`
fail with the exchange error carrying exactly the response status and body,
and the flow hands no token to its caller; a 2xx response with a parsed
`{access_token, token_type, expires_in?}` record succeeds and the flow
returns its access token. -/
theorem exchange_C8_failure_and_success :
    (∀ resp : TokenHttpResponse, respOk resp = false →
        exchangeCodeForToken resp = .failed resp.status resp.body ∧
          startOAuthFlowToken resp = none) ∧
      (∀ (resp : TokenHttpResponse) (td : TokenData), respOk resp = true →
        resp.json = some td →
        exchangeCodeForToken resp = .success td ∧
          startOAuthFlowToken resp = some td.access_token) := by
  constructor
  · intro resp h
    refine ⟨by simp [exchangeCodeForToken, h], ?_⟩
    simp [startOAuthFlowToken, exchangeCodeForToken, h]
  · intro resp td h hj
    refine ⟨by simp [exchangeCodeForToken, h, hj], ?_⟩
    simp [startOAuthFlowToken, exchangeCodeForToken, h, hj]

/-- Witness for C8: a concrete 400 response fails with its status and body
and yields no token; a concrete 200 response yields its access token. -/
theorem exchange_C8_witness :
    (exchangeCodeForToken { status := 400, body := "invalid_grant", json := none } =
        .failed 400 "invalid_grant" ∧
      startOAuthFlowToken { status := 400, body := "invalid_grant", json := none } = none) ∧
      (exchangeCodeForToken
          { status := 200, body := "ok",
            json := some { access_token := "tok", token_type := "bearer", expires_in := some 3600 } } =
          .success { access_token := "tok", token_type := "bearer", expires_in := some 3600 } ∧
        startOAuthFlowToken
            { status := 200, body := "ok",
              json := some { access_token := "tok", token_type := "bearer", expires_in := some 3600 } } =
          some "tok") :=
  ⟨exchange_C8_failure_and_success.1 _ (by decide),
    exchange_C8_failure_and_success.2 _ _ (by decide) rfl⟩

/-! ## C10 : string patterns match the raw URL, query string included -/

/-- Claim C10: the router matches string patterns against the raw request URL
including the query string — an exact-match pattern (no trailing wildcard)
never matches its own path with a query string appended, while a
trailing-wildcard pattern matches every URL beginning with its prefix, query
string included. -/
theorem router_C10_raw_url_match :
    (∀ p qs : String, isSuf (chars "*") (chars p) = false →
        patternMatches (RoutePattern.strPat p) (p ++ "?" ++ qs) = false) ∧
      (∀ p url : String, isSuf (chars "*") (chars p) = true →
        isPre ((chars p).dropLast) (chars url) = true →
        patternMatches (RoutePattern.strPat p) url = true) := by
  constructor
  · intro p qs hw
    have hne : (p == "*") = false := by
      cases hb : (p == "*") with
      | false => rfl
      | true =>
        have hp : p = "*" := eq_of_beq hb
        subst hp
        exact absurd hw (by decide)
    rw [patternMatches]
    rw [hne, hw]
    simp only [Bool.false_eq_true, if_false]
    rw [beq_eq_false_iff_ne]
    intro hEq
    have hlen := congrArg String.length hEq
    rw [String.length_append, String.length_append,
      show ("?" : String).length = 1 from rfl] at hlen
    omega
  · intro p url hw hpre
    by_cases hstar : p = "*"
    · subst hstar; simp [patternMatches]
    · have hne : (p == "*") = false := by simp [hstar]
      rw [patternMatches, hne, hw]
      simp [hpre]

/-- Witness for C10: the exact route `/messages` does not match
`/messages?sessionId=abc`, while the wildcard route `/messages*` does. -/
theorem router_C10_witness :
    patternMatches (RoutePattern.strPat "/messages") ("/messages" ++ "?" ++ "sessionId=abc") = false ∧
      patternMatches (RoutePattern.strPat "/messages*") "/messages?sessionId=abc" = true :=
  ⟨router_C10_raw_url_match.1 "/messages" "sessionId=abc" (by decide),
    router_C10_raw_url_match.2 "/messages*" "/messages?sessionId=abc" (by decide) (by decide)⟩

/-! ## C5 : RS256 only, and missing kid fails before any key lookup -/

theorem verifyToken_fails_of_alg_ne (rk : String → Option String) (cfg : JwtConfig)
    (now : Int) (t : JwtToken) (h : t.header.alg ≠ "RS256") :
    verifyOk (verifyToken rk cfg now (some t)) = false := by
  cases hk : t.header.kid with
  | none => simp [verifyToken, hk, verifyOk]
  | some kid =>
    cases hr : rk kid with
    | none => simp [verifyToken, hk, hr, verifyOk]
    | some key => simp [verifyToken, hk, hr, jwtVerify, h, verifyOk]

/-- Claim C5: `verifyToken` accepts exactly the RS256 algorithm — every token
whose header names any other algorithm fails verification however well-formed
its signature is (for every key resolver, clock and configuration), every
successful verification is of an RS256 token, and a token whose header lacks
a `kid` fails with the missing-key-id error uniformly in the key resolver,
i.e. before any key lookup can influence the outcome. -/
theorem verifyToken_C5_rs256_only_and_missing_kid :
    (∀ (rk : String → Option String) (cfg : JwtConfig) (now : Int) (t : JwtToken),
        t.header.alg ≠ "RS256" → verifyOk (verifyToken rk cfg now (some t)) = false) ∧
      (∀ (rk : String → Option String) (cfg : JwtConfig) (now : Int) (t : JwtToken),
        t.header.kid = none → verifyToken rk cfg now (some t) = .error .missingKid) ∧
      (∀ (rk : String → Option String) (cfg : JwtConfig) (now : Int) (t : JwtToken)
          (p : JwtPayload),
        verifyToken rk cfg now (some t) = .ok p → t.header.alg = "RS256") := by
  refine ⟨verifyToken_fails_of_alg_ne, ?_, ?_⟩
  · intro rk cfg now t hk
    rw [verifyToken, hk]
  · intro rk cfg now t p hok
    by_cases h : t.header.alg = "RS256"
    · exact h
    · have := verifyToken_fails_of_alg_ne rk cfg now t h
      rw [hok] at this
      exact absurd this (by simp [verifyOk])

/-- Witness for C5: a concrete HS256 token (valid signature, live expiry,
matching claims) is rejected; a concrete token without `kid` fails with the
missing-key-id error under a resolver that would happily return a key. -/
theorem verifyToken_C5_witness :
    verifyOk
        (verifyToken (fun _ => some "key") { issuer := "iss", audience := "aud" } 0
          (some
            { header := { alg := "HS256", kid := some "k1" },
              payload :=
                { iss := some "iss", aud := some "aud", sub := some "s",
                  exp := some 100, iat := none },
              sigValidFor := fun _ => true })) = false ∧
      verifyToken (fun _ => some "key") { issuer := "iss", audience := "aud" } 0
          (some
            { header := { alg := "RS256", kid := none },
              payload :=
                { iss := some "iss", aud := some "aud", sub := some "s",
                  exp := some 100, iat := none },
              sigValidFor := fun _ => true }) = .error .missingKid :=
  ⟨verifyToken_fails_of_alg_ne _ _ _ _ (by decide),
    verifyToken_C5_rs256_only_and_missing_kid.2.1 _ _ _ _ rfl⟩

/-! ## C4 : expiry is rejected with a message distinct from every other cause -/

theorem causeMsg_contains_expired (c : VerifyCause) :
    containsSub (chars c.message) (chars "expired") = (c == .expired) := by
  cases c <;> decide

theorem causeMsg_tvf_ne_expiredMsg (c : VerifyCause) :
    ("Token verification failed: " ++ c.message) ≠ "Unauthorized - Token expired" := by
  cases c <;> decide

theorem causeMsg_invalid_ne (c : VerifyCause) (h : c ≠ .expired) :
    ("Invalid token: " ++ c.message) ≠ ("Invalid token: " ++ VerifyCause.expired.message) := by
  cases c
  case expired => exact absurd rfl h
  all_goals decide

/-- Claim C4: when the gate reaches verification and the credential fails
because it is expired, the request is rejected with 401 and the expiry
message; every other verification cause (format, missing kid, key
resolution, algorithm, signature, issuer, audience) is rejected with 401 and
a message different from the expiry one. This holds for `authMiddleware`
(which maps expiry to its own distinct message) and for
`simpleAuthMiddleware` in its validating mode (whose messages embed the
distinct cause texts). -/
theorem authGate_C4_expired_message_distinct
    (verify : String → Except VerifyCause JwtPayload) (getTransport : String → Bool)
    (req : Request) (t : String) (c : VerifyCause)
    (hskip : skipAuthCond req = false)
    (hbyp : sessionBypassCond getTransport req = false)
    (hex : (extractToken req).1 = some t)
    (hne : (trimChars (chars t)).isEmpty = false)
    (hv : verify t = .error c) :
    (c = .expired →
        authMiddleware verify getTransport req = .unauthorized "Unauthorized - Token expired" ∧
          simpleAuthMiddleware verify getTransport true req =
            .unauthorizedJson "Unauthorized" 401 ("Invalid token: " ++ VerifyCause.expired.message)) ∧
      (c ≠ .expired →
        authMiddleware verify getTransport req =
            .unauthorized ("Token verification failed: " ++ c.message) ∧
          ("Token verification failed: " ++ c.message) ≠ "Unauthorized - Token expired" ∧
          simpleAuthMiddleware verify getTransport true req =
            .unauthorizedJson "Unauthorized" 401 ("Invalid token: " ++ c.message) ∧
          ("Invalid token: " ++ c.message) ≠
            ("Invalid token: " ++ VerifyCause.expired.message)) := by
  have hwk : urlIncludes req.url wellKnownFrag = false := by
    cases hu : urlIncludes req.url wellKnownFrag with
    | false => rfl
    | true => rw [skipAuthCond, hu] at hskip; simp at hskip
  have hout : ∀ msg, handleUnauthorizedOutcome req msg = .unauthorized msg := by
    intro msg; simp [handleUnauthorizedOutcome, hwk]
  constructor
  · intro hc
    subst hc
    constructor
    · have hcontains : containsSub (chars (VerifyCause.expired.message)) (chars "expired") = true := by
        decide
      simp [authMiddleware, hskip, hbyp, hex, hne, hv, hcontains, hout]
    · simp [simpleAuthMiddleware, hskip, hbyp, hex, hne, hv]
  · intro hc
    have hcontains : containsSub (chars c.message) (chars "expired") = false := by
      rw [causeMsg_contains_expired]
      simp [hc]
    refine ⟨?_, causeMsg_tvf_ne_expiredMsg c, ?_, causeMsg_invalid_ne c hc⟩
    · simp [authMiddleware, hskip, hbyp, hex, hne, hv, hcontains, hout]
    · simp [simpleAuthMiddleware, hskip, hbyp, hex, hne, hv]

/-- Witness for C4: under a verifier failing with expiry, a concrete `/sse`
request with a bearer token is rejected with the expiry message; under a
verifier failing with a signature error, the same request is rejected with
the other-failure message, and the two messages differ. -/
theorem authGate_C4_witness :
    authMiddleware (fun _ => .error .expired) (fun _ => false)
        { url := some "/sse", method := "GET",
          headers := [("authorization", "Bearer sometoken")], bodyToken := none } =
        .unauthorized "Unauthorized - Token expired" ∧
      authMiddleware (fun _ => .error .invalidSignature) (fun _ => false)
          { url := some "/sse", method := "GET",
            headers := [("authorization", "Bearer sometoken")], bodyToken := none } =
        .unauthorized ("Token verification failed: " ++ VerifyCause.invalidSignature.message) ∧
      ("Token verification failed: " ++ VerifyCause.invalidSignature.message) ≠
        "Unauthorized - Token expired" :=
  ⟨((authGate_C4_expired_message_distinct (fun _ => .error .expired) (fun _ => false)
        { url := some "/sse", method := "GET",
          headers := [("authorization", "Bearer sometoken")], bodyToken := none }
        "sometoken" .expired (by decide) (by decide) (by decide) (by decide) rfl).1 rfl).1,
    ((authGate_C4_expired_message_distinct (fun _ => .error .invalidSignature) (fun _ => false)
        { url := some "/sse", method := "GET",
          headers := [("authorization", "Bearer sometoken")], bodyToken := none }
        "sometoken" .invalidSignature (by decide) (by decide) (by decide) (by decide) rfl).2
      (by decide)).1,
    ((authGate_C4_expired_message_distinct (fun _ => .error .invalidSignature) (fun _ => false)
        { url := some "/sse", method := "GET",
          headers := [("authorization", "Bearer sometoken")], bodyToken := none }
        "sometoken" .invalidSignature (by decide) (by decide) (by decide) (by decide) rfl).2
      (by decide)).2.1⟩

/-! ## C7 : the callback listener is not closed on failure paths (code bug)

The spec requires the listener to produce at most one terminal event and to
be torn down after the first terminal event whatever its kind.  The source
calls `server.close()` only on the success branch: after a callback carrying
an `error` parameter (or one missing the code) the promise is rejected — a
terminal event — but the listener keeps accepting connections, and a later
duplicate callback is still processed (here it even closes the server, though
the settled promise no longer changes). -/

/-- Evaluation for C7 at the failing input: a success callback resolves and
closes the listener, but an error callback rejects and leaves the listener
open, and a subsequent duplicate callback is still processed (it closes the
server) while the promise keeps its first terminal value. -/
theorem listener_C7_evaluation :
    (listenerStep listenerInit (some "/callback?code=xyz")).serverOpen = false ∧
      (listenerStep listenerInit (some "/callback?code=xyz")).promise = .resolvedWith "xyz" ∧
      (listenerStep listenerInit (some "/callback?error=access_denied")).promise =
        .rejectedWith "Authorization error: access_denied" ∧
      (listenerStep listenerInit (some "/callback?error=access_denied")).serverOpen = true ∧
      (listenerRun listenerInit
          [some "/callback?error=access_denied", some "/callback?code=xyz"]).promise =
        .rejectedWith "Authorization error: access_denied" ∧
      (listenerRun listenerInit
          [some "/callback?error=access_denied", some "/callback?code=xyz"]).serverOpen =
        false := by
  refine ⟨rfl, ?_, ?_, rfl, ?_, rfl⟩ <;> decide

/-! ## C3 : credential sources are scanned in fixed priority order -/

theorem jsTruthy_none : jsTruthy none = false := rfl

theorem jsTruthy_some (t : String) : jsTruthy (some t) = !(chars t).isEmpty := rfl

theorem nonEmptyOpt_some_arg (t : String) :
    nonEmptyOpt (some t) = if (chars t).isEmpty then none else some t := rfl

theorem specHeaderToken_false (hs : List (String × String)) :
    specHeaderToken false hs = nonEmptyOpt (findBearer hs) := rfl

theorem specHeaderToken_true (hs : List (String × String)) :
    specHeaderToken true hs = nonEmptyOpt (findBearerCS hs) := rfl

theorem nonEmptyOpt_some_elim {o : Option String} {t : String}
    (h : nonEmptyOpt o = some t) : o = some t ∧ (chars t).isEmpty = false := by
  cases o with
  | none => exact Option.noConfusion h
  | some u =>
    rw [nonEmptyOpt_some_arg] at h
    cases hE : (chars u).isEmpty with
    | true =>
      rw [hE] at h
      rw [if_pos rfl] at h
      exact Option.noConfusion h
    | false =>
      rw [hE] at h
      rw [if_neg (by decide)] at h
      injection h with h
      subst h
      exact ⟨rfl, hE⟩

theorem nonEmptyOpt_none_elim {o : Option String} (h : nonEmptyOpt o = none) :
    jsTruthy o = false := by
  cases o with
  | none => rfl
  | some u =>
    rw [nonEmptyOpt_some_arg] at h
    cases hE : (chars u).isEmpty with
    | true => rw [jsTruthy_some, hE]; rfl
    | false =>
      rw [hE] at h
      rw [if_neg (by decide)] at h
      exact Option.noConfusion h

theorem extractQueryStage_of_truthy (req : Request) (st : Option String × String)
    (h : jsTruthy st.1 = true) : extractQueryStage req st = st := by
  simp [extractQueryStage, h]

theorem extractCookieStage_of_truthy (req : Request) (st : Option String × String)
    (h : jsTruthy st.1 = true) : extractCookieStage req st = st := by
  simp [extractCookieStage, h]

theorem extractBodyStage_of_truthy (req : Request) (st : Option String × String)
    (h : jsTruthy st.1 = true) : extractBodyStage req st = st := by
  simp [extractBodyStage, h]

theorem extractHeaderStage_truthy_eq (req : Request) :
    jsTruthy (extractHeaderStage req).1 = jsTruthy (findBearer req.headers) := by
  cases h : findBearer req.headers <;> simp [extractHeaderStage, h]

/-- The empty cookie-header text carries no `access_token` cookie. -/
theorem cookieFind_empty : cookieFind "" = none := by decide

theorem extractQueryStage_success (req : Request) (st : Option String × String) (t : String)
    (hst : jsTruthy st.1 = false) (h : specQueryToken req = some t) :
    extractQueryStage req st = (some t, "URL parameter") := by
  rw [specQueryToken] at h
  obtain ⟨hq, hne⟩ := nonEmptyOpt_some_elim h
  have hin : urlIncludes req.url "?" = true := urlIncludes_q_of_searchGet hq
  have ht : jsTruthy (some t) = true := by rw [jsTruthy_some, hne]; rfl
  rw [extractQueryStage]
  have hcond : (!jsTruthy st.1 && urlIncludes req.url "?") = true := by
    rw [hst, hin]; rfl
  rw [hcond, if_pos rfl, hq, ht, if_pos rfl]

theorem extractQueryStage_failure (req : Request) (st : Option String × String)
    (hst : jsTruthy st.1 = false) (h : specQueryToken req = none) :
    jsTruthy (extractQueryStage req st).1 = false := by
  rw [specQueryToken] at h
  have hqf : jsTruthy (urlSearchGet req.url "access_token") = false := nonEmptyOpt_none_elim h
  rw [extractQueryStage]
  cases hcond : (!jsTruthy st.1 && urlIncludes req.url "?") with
  | true => rw [if_pos rfl]; exact hqf
  | false => rw [if_neg (by decide)]; exact hst

theorem extractCookieStage_success (req : Request) (st : Option String × String) (t : String)
    (hst : jsTruthy st.1 = false) (h : specCookieToken req = some t) :
    extractCookieStage req st = (some t, "Cookie") := by
  rw [specCookieToken] at h
  cases hch : getHeader req.headers "cookie" with
  | none =>
    rw [hch] at h
    simp only [Option.getD_none] at h
    rw [cookieFind_empty] at h
    exact Option.noConfusion h
  | some ck =>
    rw [hch] at h
    simp only [Option.getD_some] at h
    cases hcf : cookieFind ck with
    | none => rw [hcf] at h; exact Option.noConfusion h
    | some v =>
      rw [hcf] at h
      obtain ⟨hv, _hne⟩ := nonEmptyOpt_some_elim h
      have hckne : (chars ck).isEmpty = false := by
        cases hE : (chars ck).isEmpty with
        | false => rfl
        | true =>
          have hcke : ck = "" := by
            cases ck with
            | mk data =>
              cases data with
              | nil => rfl
              | cons a l => exact Bool.noConfusion hE
          subst hcke
          rw [cookieFind_empty] at hcf
          exact Option.noConfusion hcf
      have htr : jsTruthy (some ck) = true := by rw [jsTruthy_some, hckne]; rfl
      rw [extractCookieStage]
      have hcond : (!jsTruthy st.1 && jsTruthy (getHeader req.headers "cookie")) = true := by
        rw [hst, hch, htr]; rfl
      rw [hcond, if_pos rfl, hch]
      simp only [Option.getD_some]
      rw [hcf, hv]

theorem extractCookieStage_failure (req : Request) (st : Option String × String)
    (hst : jsTruthy st.1 = false) (h : specCookieToken req = none) :
    jsTruthy (extractCookieStage req st).1 = false := by
  rw [specCookieToken] at h
  rw [extractCookieStage]
  cases hcond : (!jsTruthy st.1 && jsTruthy (getHeader req.headers "cookie")) with
  | false => rw [if_neg (by decide)]; exact hst
  | true =>
    rw [if_pos rfl]
    cases hch : getHeader req.headers "cookie" with
    | none =>
      rw [hch, jsTruthy_none, Bool.and_false] at hcond
      exact Bool.noConfusion hcond
    | some ck =>
      simp only [Option.getD_some]
      cases hcf : cookieFind ck with
      | none => exact hst
      | some v =>
        rw [hch] at h
        simp only [Option.getD_some] at h
        rw [hcf] at h
        exact nonEmptyOpt_none_elim h

theorem extractBodyStage_success (req : Request) (st : Option String × String) (t : String)
    (hst : jsTruthy st.1 = false) (h : specBodyToken req = some t) :
    extractBodyStage req st = (some t, "Request body") := by
  rw [specBodyToken] at h
  by_cases hc : (req.method == "POST" && contentTypeJson req) = true
  · rw [if_pos hc] at h
    obtain ⟨hb, hne⟩ := nonEmptyOpt_some_elim h
    have hbt : jsTruthy req.bodyToken = true := by
      rw [hb, jsTruthy_some, hne]; rfl
    have hm : (req.method == "POST") = true := by
      cases hmm : (req.method == "POST") with
      | true => rfl
      | false => rw [hmm] at hc; exact Bool.noConfusion hc
    have hj : contentTypeJson req = true := by
      cases hjj : contentTypeJson req with
      | true => rfl
      | false => rw [hjj] at hc; rw [Bool.and_false] at hc; exact Bool.noConfusion hc
    rw [extractBodyStage]
    have hcond : (!jsTruthy st.1 && req.method == "POST" && contentTypeJson req
        && jsTruthy req.bodyToken) = true := by
      rw [hst, hm, hj, hbt]; rfl
    rw [hcond, if_pos rfl, hb]
  · rw [if_neg hc] at h
    exact Option.noConfusion h

/-- Amended claim C3, proved: `extractToken` scans Authorization header
(name case-insensitive, `"Bearer "` prefix matched case-insensitively), then
the `access_token` query parameter, then the `access_token` cookie, then —
for POST requests with JSON content type — the `token` field of a parsed
body; whenever some source yields a non-empty value, the first such source
determines both the returned token and the recorded source label, and later
sources are not consulted (the specification function encodes the priority
order and is blind to all later sources). -/
theorem specCookieToken_some_nonempty {req : Request} {t : String}
    (h : specCookieToken req = some t) : (chars t).isEmpty = false := by
  rw [specCookieToken] at h
  cases hcf : cookieFind ((getHeader req.headers "cookie").getD "") with
  | none => rw [hcf] at h; exact Option.noConfusion h
  | some v => rw [hcf] at h; exact (nonEmptyOpt_some_elim h).2

theorem extractToken_C3_amended (req : Request) (t s : String)
    (h : extractTokenSpec false req = some (t, s)) :
    extractToken req = (some t, s) := by
  rw [extractTokenSpec] at h
  cases hh : specHeaderToken false req.headers with
  | some t0 =>
    rw [hh] at h
    simp only [Option.some.injEq, Prod.mk.injEq] at h
    obtain ⟨rfl, rfl⟩ := h
    rw [specHeaderToken_false] at hh
    obtain ⟨hfb, hne⟩ := nonEmptyOpt_some_elim hh
    have hhs : extractHeaderStage req = (some t0, "Authorization header") := by
      rw [extractHeaderStage, hfb]
    have htr : jsTruthy (extractHeaderStage req).1 = true := by
      rw [hhs]
      show jsTruthy (some t0) = true
      rw [jsTruthy_some, hne]; rfl
    rw [extractToken, extractQueryStage_of_truthy _ _ htr,
      extractCookieStage_of_truthy _ _ htr, extractBodyStage_of_truthy _ _ htr, hhs]
  | none =>
    rw [hh] at h
    rw [specHeaderToken_false] at hh
    have h0 : jsTruthy (extractHeaderStage req).1 = false := by
      rw [extractHeaderStage_truthy_eq]; exact nonEmptyOpt_none_elim hh
    cases hq : specQueryToken req with
    | some t1 =>
      rw [hq] at h
      simp only [Option.some.injEq, Prod.mk.injEq] at h
      obtain ⟨rfl, rfl⟩ := h
      have hqs := extractQueryStage_success req (extractHeaderStage req) t1 h0 hq
      have hne : (chars t1).isEmpty = false := by
        rw [specQueryToken] at hq
        exact (nonEmptyOpt_some_elim hq).2
      have htr : jsTruthy (extractQueryStage req (extractHeaderStage req)).1 = true := by
        rw [hqs]
        show jsTruthy (some t1) = true
        rw [jsTruthy_some, hne]; rfl
      rw [extractToken, extractCookieStage_of_truthy _ _ htr,
        extractBodyStage_of_truthy _ _ htr, hqs]
    | none =>
      rw [hq] at h
      have h1 : jsTruthy (extractQueryStage req (extractHeaderStage req)).1 = false :=
        extractQueryStage_failure req _ h0 hq
      cases hc : specCookieToken req with
      | some t2 =>
        rw [hc] at h
        simp only [Option.some.injEq, Prod.mk.injEq] at h
        obtain ⟨rfl, rfl⟩ := h
        have hcs := extractCookieStage_success req _ t2 h1 hc
        have hne : (chars t2).isEmpty = false := specCookieToken_some_nonempty hc
        have htr : jsTruthy
            (extractCookieStage req (extractQueryStage req (extractHeaderStage req))).1 = true := by
          rw [hcs]
          show jsTruthy (some t2) = true
          rw [jsTruthy_some, hne]; rfl
        rw [extractToken, extractBodyStage_of_truthy _ _ htr, hcs]
      | none =>
        rw [hc] at h
        have h2 : jsTruthy
            (extractCookieStage req (extractQueryStage req (extractHeaderStage req))).1 = false :=
          extractCookieStage_failure req _ h1 hc
        cases hb : specBodyToken req with
        | some t3 =>
          rw [hb] at h
          simp only [Option.some.injEq, Prod.mk.injEq] at h
          obtain ⟨rfl, rfl⟩ := h
          rw [extractToken]
          exact extractBodyStage_success req _ t3 h2 hb
        | none => rw [hb] at h; exact Option.noConfusion h

/-- Counterexample for C3 as stated: the claim's literal reading (the header
value must start with the case-sensitive `"Bearer "` prefix) predicts that a
request with header `authorization: bearer abc` and query `access_token=zzz`
yields the query token, but `extractToken` matches the bearer prefix
case-insensitively and returns the header token. -/
theorem extractToken_C3_counterexample :
    extractTokenSpec true
        { url := some "/tools?access_token=zzz", method := "GET",
          headers := [("authorization", "bearer abc")], bodyToken := none } =
      some ("zzz", "URL parameter") ∧
      extractToken
          { url := some "/tools?access_token=zzz", method := "GET",
            headers := [("authorization", "bearer abc")], bodyToken := none } =
        (some "abc", "Authorization header") ∧
      ((some "abc", "Authorization header") : Option String × String) ≠
        (some "zzz", "URL parameter") := by
  refine ⟨?_, ?_, ?_⟩ <;> decide

/-- Witness for C3's amended theorem: a request whose only credential is the
`access_token` query parameter yields that token labelled `URL parameter`. -/
theorem extractToken_C3_witness :
    extractToken
        { url := some "/tools?access_token=zzz", method := "GET",
          headers := [], bodyToken := none } = (some "zzz", "URL parameter") :=
  extractToken_C3_amended
    { url := some "/tools?access_token=zzz", method := "GET",
      headers := [], bodyToken := none } "zzz" "URL parameter" (by decide)

/-! ## C6 : client-side decode -/

theorem splitOnCharAux_no (c : Char) :
    ∀ (l acc : List Char), c ∉ l → splitOnCharAux c l acc = [acc.reverse ++ l] := by
  intro l
  induction l with
  | nil => intro acc _; simp [splitOnCharAux]
  | cons x xs ih =>
    intro acc hmem
    have hxne : x ≠ c := fun he => hmem (by rw [← he]; exact List.mem_cons_self x xs)
    have hx : (x == c) = false := beq_eq_false_iff_ne.mpr hxne
    have hmem' : c ∉ xs := fun hm => hmem (List.mem_cons_of_mem x hm)
    simp only [splitOnCharAux, hx]
    rw [if_neg (by decide)]
    rw [ih (x :: acc) hmem']
    simp [List.append_assoc]

theorem splitOnCharAux_app (c : Char) :
    ∀ (l r acc : List Char), c ∉ l →
      splitOnCharAux c (l ++ c :: r) acc = (acc.reverse ++ l) :: splitOnChar c r := by
  intro l
  induction l with
  | nil =>
    intro r acc _
    simp only [List.nil_append, splitOnCharAux]
    rw [if_pos (by rw [beq_self_eq_true])]
    simp [splitOnChar]
  | cons x xs ih =>
    intro r acc hmem
    have hxne : x ≠ c := fun he => hmem (by rw [← he]; exact List.mem_cons_self x xs)
    have hx : (x == c) = false := beq_eq_false_iff_ne.mpr hxne
    have hmem' : c ∉ xs := fun hm => hmem (List.mem_cons_of_mem x hm)
    simp only [List.cons_append, splitOnCharAux, hx, List.append_eq]
    rw [if_neg (by decide)]
    rw [ih r (x :: acc) hmem']
    simp [List.append_assoc]

theorem splitOnChar_app (c : Char) (l r : List Char) (h : c ∉ l) :
    splitOnChar c (l ++ c :: r) = l :: splitOnChar c r := by
  rw [splitOnChar, splitOnCharAux_app c l r [] h]
  simp

/-- The character decomposition of a three-segment token. -/
theorem chars_three_segments (hseg pseg sseg : String) :
    chars (hseg ++ "." ++ pseg ++ "." ++ sseg) =
      chars hseg ++ '.' :: (chars pseg ++ '.' :: chars sseg) := by
  show (hseg ++ "." ++ pseg ++ "." ++ sseg).data = _
  rw [String.data_append, String.data_append, String.data_append, String.data_append]
  have hdot : (".".data) = ['.'] := rfl
  rw [hdot]
  simp [chars, List.append_assoc]

/-- Amended claim C6: `decodeToken` is total by construction and returns a
`{header, payload, hasSignature}` record for every input; for every token of
three dot-separated segments whose first two base64url-decode to parseable
JSON it returns the decoded header and payload; an input with no payload
segment (fewer than two dot-separated segments) yields the invalid-format
sentinel; and a segment that fails base64/JSON decoding yields the
error-marked parse object for that part instead of raising (only the
`hasSignature` flag reflects a missing third segment, not the sentinel). -/
theorem decodeToken_C6_amended (parse : String → Option Json) :
    (∀ (hseg pseg sseg : String) (jh jp : Json),
        '.' ∉ chars hseg → '.' ∉ chars pseg →
        parse (b64UrlDecode hseg) = some jh →
        parse (b64UrlDecode pseg) = some jp →
        (decodeToken parse (hseg ++ "." ++ pseg ++ "." ++ sseg)).header = jh ∧
          (decodeToken parse (hseg ++ "." ++ pseg ++ "." ++ sseg)).payload = jp) ∧
      (∀ token : String, (splitOnChar '.' (chars token)).get? 1 = none →
        decodeToken parse token = invalidFormatSentinel) ∧
      (∀ b64 : String, parse (b64UrlDecode b64) = none →
        decodeBase64Part parse b64 = jsonParseErrorObj) ∧
      (∀ (b64 : String) (j : Json), parse (b64UrlDecode b64) = some j →
        decodeBase64Part parse b64 = j) := by
  refine ⟨?_, ?_, ?_, ?_⟩
  · intro hseg pseg sseg jh jp hh hp hjh hjp
    have hsplit : splitOnChar '.' (chars (hseg ++ "." ++ pseg ++ "." ++ sseg)) =
        chars hseg :: chars pseg :: splitOnChar '.' (chars sseg) := by
      rw [chars_three_segments]
      rw [splitOnChar_app '.' _ _ hh]
      rw [splitOnChar_app '.' _ _ hp]
    constructor
    · simp only [decodeToken, hsplit, List.get?_cons_succ, List.get?_cons_zero,
        Option.getD_some]
      show decodeBase64Part parse (String.mk (chars hseg)) = jh
      rw [show String.mk (chars hseg) = hseg from rfl]
      rw [decodeBase64Part, hjh]
    · simp only [decodeToken, hsplit, List.get?_cons_succ, List.get?_cons_zero,
        Option.getD_some]
      show decodeBase64Part parse (String.mk (chars pseg)) = jp
      rw [show String.mk (chars pseg) = pseg from rfl]
      rw [decodeBase64Part, hjp]
  · intro token h
    simp only [decodeToken, h]
  · intro b64 h
    rw [decodeBase64Part, h]
  · intro b64 j h
    rw [decodeBase64Part, h]

/-- Counterexample for C6 as stated: `"e30.e30"` is missing its signature
segment (it has only two dot-separated segments), yet `decodeToken` returns
the properly decoded empty-object header and payload with `hasSignature`
false — not the invalid-format sentinel the claim requires for every input
with a missing segment. -/
theorem decodeToken_C6_counterexample :
    (splitOnChar '.' (chars "e30.e30")).length = 2 ∧
      decodeToken jsParse "e30.e30" =
        { header := Json.obj [], payload := Json.obj [], hasSignature := false } ∧
      decodeToken jsParse "e30.e30" ≠ invalidFormatSentinel := by
  refine ⟨rfl, rfl, ?_⟩
  intro hEq
  have hhd : Json.obj ([] : List (String × Json)) =
      Json.obj [("error", Json.str "Invalid token format")] := by
    have h1 : (decodeToken jsParse "e30.e30").header = Json.obj [] := rfl
    have h2 : invalidFormatSentinel.header =
        Json.obj [("error", Json.str "Invalid token format")] := rfl
    rw [← h1, ← h2, hEq]
  injection hhd with hfields
  exact List.noConfusion hfields

/-- Witness for C6's amended theorem: the three-segment token
`"e30.e30.sig"` decodes to the empty-object header and payload. -/
theorem decodeToken_C6_witness :
    (decodeToken jsParse ("e30" ++ "." ++ "e30" ++ "." ++ "sig")).header = Json.obj [] ∧
      (decodeToken jsParse ("e30" ++ "." ++ "e30" ++ "." ++ "sig")).payload = Json.obj [] :=
  (decodeToken_C6_amended jsParse).1 "e30" "e30" "sig" (Json.obj []) (Json.obj [])
    (by decide) (by decide) rfl rfl

/-! ## C9 : middleware-chain guarantees of the router -/

theorem countHandlerRuns_nil : countHandlerRuns [] = 0 := rfl

theorem countHandlerRuns_cons_mw (i : Nat) (b : Bool) (evs : List Ev) :
    countHandlerRuns (Ev.mwRun i b :: evs) = countHandlerRuns evs := by
  simp [countHandlerRuns, List.filter_cons, isHandlerEv]

theorem countHandlerRuns_cons_threw (i : Nat) (evs : List Ev) :
    countHandlerRuns (Ev.threw i :: evs) = countHandlerRuns evs := by
  simp [countHandlerRuns, List.filter_cons, isHandlerEv]

theorem countHandlerRuns_cons_handler (b : Bool) (evs : List Ev) :
    countHandlerRuns (Ev.handlerRun b :: evs) = countHandlerRuns evs + 1 := by
  simp [countHandlerRuns, List.filter_cons, isHandlerEv]

theorem bool_eq_false_of_ne_true {b : Bool} (h : ¬b = true) : b = false := by
  cases b with
  | true => exact absurd rfl h
  | false => rfl

theorem runChain_handler_at_most_once (handler : List ResOp) :
    ∀ (mws : List Mw) (i : Nat) (r : Resp),
      countHandlerRuns (runChain handler mws i r).2.1 ≤ 1 := by
  intro mws
  induction mws with
  | nil =>
    intro i r
    simp [runChain, countHandlerRuns_cons_handler, countHandlerRuns_nil]
  | cons mw rest ih =>
    intro i r
    cases mw with
    | throws pre =>
      simp [runChain, countHandlerRuns_cons_mw, countHandlerRuns_cons_threw,
        countHandlerRuns_nil]
    | noNext eff =>
      simp [runChain, countHandlerRuns_cons_mw, countHandlerRuns_nil]
    | withNext pre post =>
      by_cases h1 : (applyEff pre r).ended = true
      · simp [runChain, h1, countHandlerRuns_cons_mw, countHandlerRuns_nil]
      · have h1' : (applyEff pre r).ended = false := bool_eq_false_of_ne_true h1
        cases h2 : (runChain handler rest (i + 1) (applyEff pre r)).2.2 with
        | true =>
          simp only [runChain, h1', Bool.false_eq_true, if_false, h2, if_true,
            countHandlerRuns_cons_mw]
          exact ih (i + 1) (applyEff pre r)
        | false =>
          simp only [runChain, h1', Bool.false_eq_true, if_false, h2,
            countHandlerRuns_cons_mw]
          exact ih (i + 1) (applyEff pre r)

theorem runChain_no_entry_after_finalized (handler : List ResOp) :
    ∀ (mws : List Mw) (i : Nat) (r : Resp), r.ended = false →
      ∀ ev ∈ (runChain handler mws i r).2.1, evEnteredFinalized ev = false := by
  intro mws
  induction mws with
  | nil =>
    intro i r hr ev hev
    simp [runChain] at hev
    subst hev
    simp [evEnteredFinalized, hr]
  | cons mw rest ih =>
    intro i r hr ev hev
    cases mw with
    | throws pre =>
      simp [runChain] at hev
      rcases hev with h | h <;> subst h <;> simp [evEnteredFinalized, hr]
    | noNext eff =>
      simp [runChain] at hev
      subst hev
      simp [evEnteredFinalized, hr]
    | withNext pre post =>
      by_cases h1 : (applyEff pre r).ended = true
      · simp [runChain, h1] at hev
        subst hev
        simp [evEnteredFinalized, hr]
      · have h1' : (applyEff pre r).ended = false := bool_eq_false_of_ne_true h1
        cases h2 : (runChain handler rest (i + 1) (applyEff pre r)).2.2 with
        | true =>
          simp only [runChain, h1', Bool.false_eq_true, if_false, h2, if_true,
            List.mem_cons] at hev
          rcases hev with h | h
          · subst h; simp [evEnteredFinalized, hr]
          · exact ih (i + 1) (applyEff pre r) h1' ev h
        | false =>
          simp only [runChain, h1', Bool.false_eq_true, if_false, h2,
            List.mem_cons] at hev
          rcases hev with h | h
          · subst h; simp [evEnteredFinalized, hr]
          · exact ih (i + 1) (applyEff pre r) h1' ev h

theorem runChain_threw_last (handler : List ResOp) :
    ∀ (mws : List Mw) (i : Nat) (r : Resp), (runChain handler mws i r).2.2 = true →
      ∃ j pfx, (runChain handler mws i r).2.1 = pfx ++ [Ev.threw j] := by
  intro mws
  induction mws with
  | nil => intro i r h; simp [runChain] at h
  | cons mw rest ih =>
    intro i r h
    cases mw with
    | throws pre =>
      exact ⟨i, [Ev.mwRun i r.ended], rfl⟩
    | noNext eff => simp [runChain] at h
    | withNext pre post =>
      by_cases h1 : (applyEff pre r).ended = true
      · rw [runChain] at h
        rw [if_pos h1] at h
        exact Bool.noConfusion h
      · have h1' : (applyEff pre r).ended = false := bool_eq_false_of_ne_true h1
        cases h2 : (runChain handler rest (i + 1) (applyEff pre r)).2.2 with
        | false =>
          rw [runChain] at h
          rw [if_neg (by rw [h1']; exact Bool.noConfusion)] at h
          simp only [h2, Bool.false_eq_true, if_false] at h
        | true =>
          obtain ⟨j, pfx, hpfx⟩ := ih (i + 1) (applyEff pre r) h2
          refine ⟨j, Ev.mwRun i r.ended :: pfx, ?_⟩
          simp only [runChain, h1', Bool.false_eq_true, if_false, h2, if_true]
          rw [hpfx]
          rfl

theorem handleRequest_none (routes : List RouteEntry) (mws : List Mw)
    (m url : String) (r : Resp) (hf : findRoute routes m url = none) :
    handleRequest routes mws m url r = (r, [], false) := by
  rw [handleRequest, hf]

theorem handleRequest_some (routes : List RouteEntry) (mws : List Mw)
    (m url : String) (r : Resp) (rt : RouteEntry)
    (hf : findRoute routes m url = some rt) :
    handleRequest routes mws m url r = dispatchRoute mws rt r := by
  rw [handleRequest, hf]

theorem handleRequest_handler_at_most_once
    (routes : List RouteEntry) (mws : List Mw) (m url : String) (r : Resp) :
    countHandlerRuns (handleRequest routes mws m url r).2.1 ≤ 1 := by
  cases hf : findRoute routes m url with
  | none => rw [handleRequest_none routes mws m url r hf]; simp [countHandlerRuns_nil]
  | some rt =>
    rw [handleRequest_some routes mws m url r rt hf, dispatchRoute]
    by_cases hm : mws.isEmpty = true
    · rw [if_pos hm]
      simp [countHandlerRuns_cons_handler, countHandlerRuns_nil]
    · rw [if_neg hm]
      cases h2 : (runChain rt.handler mws 0 r).2.2 with
      | true =>
        simp only [h2, if_true]
        exact runChain_handler_at_most_once rt.handler mws 0 r
      | false =>
        simp only [h2, Bool.false_eq_true, if_false]
        exact runChain_handler_at_most_once rt.handler mws 0 r

theorem handleRequest_no_entry_after_finalized
    (routes : List RouteEntry) (mws : List Mw) (m url : String) (r : Resp)
    (hr : r.ended = false) :
    ∀ ev ∈ (handleRequest routes mws m url r).2.1, evEnteredFinalized ev = false := by
  cases hf : findRoute routes m url with
  | none =>
    intro ev hev
    rw [handleRequest_none routes mws m url r hf] at hev
    exact absurd hev (by simp)
  | some rt =>
    rw [handleRequest_some routes mws m url r rt hf, dispatchRoute]
    by_cases hm : mws.isEmpty = true
    · rw [if_pos hm]
      intro ev hev
      simp at hev
      subst hev
      simp [evEnteredFinalized, hr]
    · rw [if_neg hm]
      cases h2 : (runChain rt.handler mws 0 r).2.2 with
      | true =>
        simp only [h2, if_true]
        exact runChain_no_entry_after_finalized rt.handler mws 0 r hr
      | false =>
        simp only [h2, Bool.false_eq_true, if_false]
        exact runChain_no_entry_after_finalized rt.handler mws 0 r hr

theorem findRoute_first :
    ∀ (routes : List RouteEntry) (m url : String) (rt : RouteEntry),
      findRoute routes m url = some rt →
      ∃ k, routes.get? k = some rt ∧ routeMatches m url rt = true ∧
        ∀ j, j < k → ∀ rt2, routes.get? j = some rt2 → routeMatches m url rt2 = false := by
  intro routes
  induction routes with
  | nil => intro m url rt h; exact absurd h (by simp [findRoute])
  | cons r0 rs ih =>
    intro m url rt h
    rw [findRoute] at h
    cases hm : routeMatches m url r0 with
    | true =>
      rw [List.find?_cons_of_pos rs hm] at h
      injection h with h
      subst h
      exact ⟨0, rfl, hm, fun j hj => absurd hj (Nat.not_lt_zero j)⟩
    | false =>
      rw [List.find?_cons_of_neg rs (by rw [hm]; exact Bool.noConfusion)] at h
      obtain ⟨k, h1, h2, h3⟩ := ih m url rt h
      refine ⟨k + 1, by simpa using h1, h2, ?_⟩
      intro j hj rt2 hg
      cases j with
      | zero =>
        simp only [List.get?_cons_zero] at hg
        injection hg with hg
        subst hg
        exact hm
      | succ j' =>
        exact h3 j' (Nat.lt_of_succ_lt_succ hj) rt2 (by simpa using hg)

theorem applyEff_gen500 (r : Resp) (h : r.ended = false) :
    applyEff gen500 r =
      { ended := true, status := some 500, body := "Internal Server Error" } := by
  simp [applyEff, gen500, applyOp, h]

theorem handleRequest_throw_response
    (routes : List RouteEntry) (mws : List Mw) (m url : String) (r : Resp)
    (rt : RouteEntry) (hf : findRoute routes m url = some rt)
    (hm : mws.isEmpty = false) (ht : (runChain rt.handler mws 0 r).2.2 = true) :
    (handleRequest routes mws m url r).1.ended = true ∧
      ((runChain rt.handler mws 0 r).1.ended = false →
        (handleRequest routes mws m url r).1.status = some 500 ∧
          (handleRequest routes mws m url r).1.body = "Internal Server Error") := by
  rw [handleRequest_some routes mws m url r rt hf, dispatchRoute]
  rw [if_neg (by rw [hm]; exact Bool.noConfusion)]
  simp only [ht, if_true]
  by_cases hend : (runChain rt.handler mws 0 r).1.ended = true
  · rw [if_pos hend]
    exact ⟨hend, fun hc => absurd hc (by rw [hend]; exact fun hh => Bool.noConfusion hh)⟩
  · have hend' : (runChain rt.handler mws 0 r).1.ended = false := bool_eq_false_of_ne_true hend
    rw [if_neg (by rw [hend']; exact Bool.noConfusion)]
    rw [applyEff_gen500 _ hend']
    exact ⟨rfl, fun _ => ⟨rfl, rfl⟩⟩

/-- Claim C9: the router's middleware chain invokes the terminal handler at
most once; starting from an unfinalized response, no middleware or handler is
ever entered after the response has been finalized (a middleware that writes
and ends the response short-circuits the rest of the chain whether or not it
calls its continuation); route rules are tried in registration order with the
first matching rule winning; and a middleware that throws stops the chain
(the throw is the last trace event) with the router writing the generic
500 "Internal Server Error" response whenever the response was not already
finalized. -/
theorem router_C9_chain_guarantees :
    (∀ (routes : List RouteEntry) (mws : List Mw) (m url : String) (r : Resp),
        countHandlerRuns (handleRequest routes mws m url r).2.1 ≤ 1) ∧
      (∀ (routes : List RouteEntry) (mws : List Mw) (m url : String) (r : Resp),
        r.ended = false →
        ∀ ev ∈ (handleRequest routes mws m url r).2.1, evEnteredFinalized ev = false) ∧
      (∀ (routes : List RouteEntry) (m url : String) (rt : RouteEntry),
        findRoute routes m url = some rt →
        ∃ k, routes.get? k = some rt ∧ routeMatches m url rt = true ∧
          ∀ j, j < k → ∀ rt2, routes.get? j = some rt2 → routeMatches m url rt2 = false) ∧
      (∀ (handler pre post : List ResOp) (rest : List Mw) (i : Nat) (r : Resp),
        (applyEff pre r).ended = true →
        (runChain handler (Mw.withNext pre post :: rest) i r).2.1 = [Ev.mwRun i r.ended]) ∧
      (∀ (handler eff : List ResOp) (rest : List Mw) (i : Nat) (r : Resp),
        (runChain handler (Mw.noNext eff :: rest) i r).2.1 = [Ev.mwRun i r.ended]) ∧
      (∀ (handler : List ResOp) (mws : List Mw) (i : Nat) (r : Resp),
        (runChain handler mws i r).2.2 = true →
        ∃ j pfx, (runChain handler mws i r).2.1 = pfx ++ [Ev.threw j]) ∧
      (∀ (routes : List RouteEntry) (mws : List Mw) (m url : String) (r : Resp)
          (rt : RouteEntry),
        findRoute routes m url = some rt → mws.isEmpty = false →
        (runChain rt.handler mws 0 r).2.2 = true →
        (handleRequest routes mws m url r).1.ended = true ∧
          ((runChain rt.handler mws 0 r).1.ended = false →
            (handleRequest routes mws m url r).1.status = some 500 ∧
              (handleRequest routes mws m url r).1.body = "Internal Server Error")) := by
  refine ⟨handleRequest_handler_at_most_once, handleRequest_no_entry_after_finalized,
    findRoute_first, ?_, ?_, runChain_threw_last,
    handleRequest_throw_response⟩
  · intro handler pre post rest i r h
    simp [runChain, h]
  · intro handler eff rest i r
    rfl

/-- Witness for C9 at a concrete router: one pass-through middleware, one
short-circuiting middleware and a registered route; the theorem's parts are
applied to these concrete inputs. -/
def demoRoute : RouteEntry :=
  { method := "GET", pattern := RoutePattern.strPat "/sse",
    handler := [ResOp.endRes "ok"] }

theorem router_C9_witness :
    countHandlerRuns
        (handleRequest [demoRoute]
          [Mw.withNext [] [], Mw.throws [ResOp.writeHead 401]]
          "GET" "/sse" { ended := false, status := none, body := "" }).2.1 ≤ 1 ∧
      (runChain [ResOp.endRes "ok"]
          [Mw.withNext [ResOp.endRes "early"] []] 0
          { ended := false, status := none, body := "" }).2.1 =
        [Ev.mwRun 0 false] ∧
      (handleRequest [demoRoute]
          [Mw.withNext [] [], Mw.throws [ResOp.writeHead 401]]
          "GET" "/sse" { ended := false, status := none, body := "" }).1.ended = true := by
  refine ⟨router_C9_chain_guarantees.1 _ _ _ _ _, ?_, ?_⟩
  · exact router_C9_chain_guarantees.2.2.2.1 [ResOp.endRes "ok"]
      [ResOp.endRes "early"] [] [] 0 { ended := false, status := none, body := "" }
      (by decide)
  · exact (router_C9_chain_guarantees.2.2.2.2.2.2
      [demoRoute]
      [Mw.withNext [] [], Mw.throws [ResOp.writeHead 401]]
      "GET" "/sse" { ended := false, status := none, body := "" }
      demoRoute
      (by rfl) rfl (by decide)).1

end McpAuth
